import Mathlib

/-!
Verification of the PLAF risk-scoring pipeline.

This file gives a shallow embedding of the algorithmic core of the PLAF
repository (feature engineering with cohort z-scores, model selection,
explainability entry points, counterfactual generation, LLM advice parsing,
few-shot prototypical networks and the cold-start KNN handler) and proves,
or refutes, the specification claims about it.

Numeric values are modelled as rationals.  Library functions whose exact
numerics are external (np.sqrt, np.exp, json.loads, the DiCE search, the
scikit-learn cross-validation scores) are passed in as explicit function
parameters, with the algebraic facts the proofs need about them stated as
hypotheses.
-/

namespace PLAF

/-! ### Shared list helpers -/

/-- Arithmetic mean of a list, `np.mean` / pandas mean (0 on the empty list,
where numpy would produce NaN; no claim is evaluated on an empty list). -/
def listMean (xs : List ℚ) : ℚ := xs.sum / xs.length

/-- Sample variance with ddof = 1, as pandas `GroupBy.agg std` computes it.
For n ≤ 1 pandas yields NaN; we return 0, which behaves identically under
the only use site, the test `std > 0` in apply_zscore_standardization
(NaN > 0 and 0 > 0 are both false). -/
def sampleVar (xs : List ℚ) : ℚ :=
  if xs.length ≤ 1 then 0
  else (xs.map (fun x => (x - listMean xs) ^ 2)).sum / ((xs.length : ℚ) - 1)

/-! ### Feature engineering: cohort z-scores
(src/data/feature_engineering.py, FeatureEngineer) -/

/-- One row of the merged student table, restricted to the cohort key and a
single numeric feature value (the z-scoring loop treats features one at a
time). -/
structure FRow where
  code_module : String
  code_presentation : String
  value : ℚ
deriving DecidableEq

/-- Values of the feature inside the (code_module, code_presentation) cohort:
the pandas groupby on the cohort key. -/
def cohortValues (rows : List FRow) (m p : String) : List ℚ :=
  (rows.filter (fun r => r.code_module == m && r.code_presentation == p)).map
    (fun r => r.value)

/-- Cohort mean, `groupby(...).agg mean`. -/
def cohortMean (rows : List FRow) (m p : String) : ℚ :=
  listMean (cohortValues rows m p)

/-- Cohort standard deviation, `groupby(...).agg std`: the square root of the
ddof = 1 sample variance.  `sq` abstracts the square-root map. -/
def cohortStd (sq : ℚ → ℚ) (rows : List FRow) (m p : String) : ℚ :=
  sq (sampleVar (cohortValues rows m p))

/-- The z-score formula of apply_zscore_standardization:
`np.where(std > 0, (x - mean) / std, 0)`. -/
def zscoreValue (x mean std : ℚ) : ℚ :=
  if 0 < std then (x - mean) / std else 0

/-- The z-score apply_zscore_standardization stores for row `r`:
the z of its feature value against its own cohort statistics. -/
def apply_zscore (sq : ℚ → ℚ) (rows : List FRow) (r : FRow) : ℚ :=
  zscoreValue r.value (cohortMean rows r.code_module r.code_presentation)
    (cohortStd sq rows r.code_module r.code_presentation)

/-- FeatureEngineer.convert_zscore_to_raw: `z * cohort_std + cohort_mean`. -/
def convert_zscore_to_raw (z cohort_mean cohort_std : ℚ) : ℚ :=
  z * cohort_std + cohort_mean

/-- C1: for every row whose cohort standard deviation of the feature is
nonzero (a real square root, hence nonnegative), convert_zscore_to_raw
applied to the stored z-score with the cohort mean and std returns the
original raw value. -/
theorem zscore_roundtrip (sq : ℚ → ℚ) (rows : List FRow) (r : FRow)
    (hnn : 0 ≤ cohortStd sq rows r.code_module r.code_presentation)
    (hs : cohortStd sq rows r.code_module r.code_presentation ≠ 0) :
    convert_zscore_to_raw (apply_zscore sq rows r)
      (cohortMean rows r.code_module r.code_presentation)
      (cohortStd sq rows r.code_module r.code_presentation) = r.value := by
  have hpos : 0 < cohortStd sq rows r.code_module r.code_presentation :=
    lt_of_le_of_ne hnn (Ne.symm hs)
  unfold convert_zscore_to_raw apply_zscore zscoreValue
  rw [if_pos hpos]
  field_simp

/-- Concrete run of C1: a two-student cohort with raw values 1 and 3 (sample
variance 2, square root taken as the identity for the witness, so std = 2),
round-tripping the first student's value. -/
theorem zscore_roundtrip_witness :
    0 ≤ cohortStd id [⟨"AAA", "2013J", 1⟩, ⟨"AAA", "2013J", 3⟩] "AAA" "2013J" ∧
    cohortStd id [⟨"AAA", "2013J", 1⟩, ⟨"AAA", "2013J", 3⟩] "AAA" "2013J" ≠ 0 ∧
    convert_zscore_to_raw
      (apply_zscore id [⟨"AAA", "2013J", 1⟩, ⟨"AAA", "2013J", 3⟩]
        ⟨"AAA", "2013J", 1⟩)
      (cohortMean [⟨"AAA", "2013J", 1⟩, ⟨"AAA", "2013J", 3⟩] "AAA" "2013J")
      (cohortStd id [⟨"AAA", "2013J", 1⟩, ⟨"AAA", "2013J", 3⟩] "AAA" "2013J")
      = 1 := by
  have hstd : cohortStd id [⟨"AAA", "2013J", 1⟩, ⟨"AAA", "2013J", 3⟩]
      "AAA" "2013J" = 2 := by
    norm_num [cohortStd, cohortValues, sampleVar, listMean, List.filter]
  refine ⟨by rw [hstd]; norm_num, by rw [hstd]; norm_num, ?_⟩
  exact zscore_roundtrip id
    [⟨"AAA", "2013J", 1⟩, ⟨"AAA", "2013J", 3⟩] ⟨"AAA", "2013J", 1⟩
    (by rw [hstd]; norm_num) (by rw [hstd]; norm_num)

/-! ### Model candidate set (src/models/train.py) -/

/-- Lines 13-17 of train.py: `try: from catboost import CatBoostClassifier;
CATBOOST_AVAILABLE = True except ImportError: CATBOOST_AVAILABLE = False`. -/
def CATBOOST_AVAILABLE (catboostImportable : Bool) : Bool := catboostImportable

/-- Lines 18-22 of train.py: `try: from xgboost import XGBClassifier;
XGBOOST_AVAILABLE = False  # Force disable for Python 3.14 compatibility
except ImportError: XGBOOST_AVAILABLE = False`.  Both branches assign False:
the successful import is immediately overridden. -/
def XGBOOST_AVAILABLE (xgboostImportable : Bool) : Bool :=
  if xgboostImportable then false else false

/-- ModelTrainer.initialize_models: the candidate model dictionary keys, in
dict-literal order; CatBoost and XGBoost entries are spliced in only when the
corresponding availability flag is set. -/
def init_models (catboostImportable xgboostImportable : Bool) : List String :=
  ["Logistic Regression", "Random Forest"] ++
    (if CATBOOST_AVAILABLE catboostImportable then ["CatBoost"] else []) ++
    (if XGBOOST_AVAILABLE xgboostImportable then ["XGBoost"] else []) ++
    ["SVM"]

/-- C2 counterexample: even with the xgboost library importable, XGBoost is
absent from the candidate set, because train.py line 20 hardcodes
XGBOOST_AVAILABLE = False right after the successful import.  This refutes
"contains XGBoost exactly when the xgboost library is importable". -/
theorem init_models_xgboost_missing_counterexample :
    "XGBoost" ∉ init_models true true := by
  decide

/-- C2 (amended): initialize_models always succeeds; the candidate set
contains CatBoost exactly when the catboost library is importable, never
contains XGBoost (its availability flag is hardcoded False even when its
module imports fine), and always contains the three unconditional models. -/
theorem init_models_availability (cb xgb : Bool) :
    ("CatBoost" ∈ init_models cb xgb ↔ cb = true) ∧
    "XGBoost" ∉ init_models cb xgb ∧
    "Logistic Regression" ∈ init_models cb xgb ∧
    "Random Forest" ∈ init_models cb xgb ∧
    "SVM" ∈ init_models cb xgb := by
  cases cb <;> cases xgb <;> decide

/-! ### Explainability entry points
(src/explainability/shap_explainer.py and anchor_explainer.py) -/

/-- shap_explainer.py lines 9-14: `try: import shap; SHAP_AVAILABLE = True
except ImportError: shap = None; SHAP_AVAILABLE = False`.  Importing the
module never raises; it only records availability. -/
def shap_module_import (shapImportable : Bool) : Except String Bool :=
  Except.ok shapImportable

/-- explain_model_globally (shap_explainer.py lines 299-313): when SHAP is
unavailable the caller receives the pair (None, None); otherwise the SHAP
computation itself runs, abstracted here as `run`. -/
def explain_model_globally {α β : Type} (shapAvailable : Bool)
    (run : Except String (Option α × Option β)) :
    Except String (Option α × Option β) :=
  if shapAvailable then run else Except.ok (none, none)

/-- anchor_explainer.py line 9: `from anchor import anchor_tabular` at module
top level with no try/except — importing the module raises ImportError when
the anchor library is missing. -/
def anchor_module_import (anchorImportable : Bool) : Except String Unit :=
  if anchorImportable then Except.ok ()
  else Except.error "ImportError: No module named anchor"

/-- Calling the anchor entry point generate_anchor_explanations requires its
module to be imported first; the explanation computation itself is
abstracted as `run`. -/
def call_generate_anchor_explanations {α : Type} (anchorImportable : Bool)
    (run : Except String α) : Except String α :=
  (anchor_module_import anchorImportable).bind (fun _ => run)

/-- C3 counterexample: with the anchor library missing, the caller of the
anchor entry point receives a propagating ImportError, not None — that
module pulls in anchor_tabular unconditionally.  (The SHAP half of the claim
holds; see explain_entry_points_on_missing_library.) -/
theorem anchor_unavailable_counterexample :
    call_generate_anchor_explanations false (Except.ok ([] : List String)) =
      Except.error "ImportError: No module named anchor" := rfl

/-- C3 (amended): with the underlying library unavailable, the SHAP entry
point explain_model_globally returns (None, None) without running any SHAP
computation, while the Anchor explainer raises ImportError at module import,
so its caller receives the exception rather than None. -/
theorem explain_entry_points_on_missing_library {α β γ : Type}
    (run : Except String (Option α × Option β)) (runAnchor : Except String γ) :
    explain_model_globally false run = Except.ok (none, none) ∧
    call_generate_anchor_explanations false runAnchor =
      Except.error "ImportError: No module named anchor" :=
  ⟨rfl, rfl⟩

/-! ### prepare_modeling_data
(src/data/feature_engineering.py lines 187-232) -/

/-- One dataframe column as prepare_modeling_data sees it: a cell is either a
value or missing (NaN). -/
abbrev PCol := List (Option ℚ)

/-- pandas `Series.notna().sum()`: the number of non-missing cells. -/
def notnaSum (col : PCol) : Nat := (col.filterMap id).length

/-- pandas `Series.nunique()`: the number of distinct non-missing values. -/
def nunique (col : PCol) : Nat := (col.filterMap id).dedup.length

/-- The validity test of prepare_modeling_data:
`self.df[col].notna().sum() > 0 and self.df[col].nunique() > 1`. -/
def validFeature (col : PCol) : Bool :=
  decide (0 < notnaSum col) && decide (1 < nunique col)

/-- One iteration of the feature-selection loop: skip a name already appended
(the seen_features set), append a fresh column only when it passes the
validity test. -/
def selStep (acc : List (String × PCol)) (c : String × PCol) :
    List (String × PCol) :=
  if acc.any (fun a => a.1 == c.1) then acc
  else if validFeature c.2 then acc ++ [c] else acc

/-- The feature-selection loop of prepare_modeling_data over the candidate
modeling columns. -/
def selectValidFeatures (cols : List (String × PCol)) : List (String × PCol) :=
  cols.foldl selStep []

/-- pandas Series.fillna(0): replace every missing cell by the constant 0. -/
def fillna0 (col : PCol) : List ℚ := col.map (fun o => o.getD 0)

/-- prepare_modeling_data: the retained modeling columns, each with residual
NaN replaced by 0. -/
def prepare_modeling_data (cols : List (String × PCol)) :
    List (String × List ℚ) :=
  (selectValidFeatures cols).map (fun c => (c.1, fillna0 c.2))

/-- A nodup list whose elements are all equal has at most one element. -/
lemma length_le_one_of_nodup_of_forall_eq {α : Type} (l : List α) (v : α)
    (hnd : l.Nodup) (h : ∀ x ∈ l, x = v) : l.length ≤ 1 := by
  match l with
  | [] => simp
  | [a] => simp
  | a :: b :: t =>
    exfalso
    rw [List.nodup_cons] at hnd
    exact hnd.1 (by rw [h a (by simp), h b (by simp)]; simp)

/-- Every element of the selection loop output is an element of the
accumulator or a valid element of the input list. -/
lemma selectValidFeatures_mem (cols : List (String × PCol)) :
    ∀ (acc : List (String × PCol)) (p : String × PCol),
      p ∈ cols.foldl selStep acc →
      p ∈ acc ∨ (p ∈ cols ∧ validFeature p.2 = true) := by
  induction cols with
  | nil => intro acc p hp; exact Or.inl hp
  | cons c cols ih =>
    intro acc p hp
    rcases ih (selStep acc c) p hp with h | h
    · unfold selStep at h
      by_cases hseen : acc.any (fun a => a.1 == c.1)
      · rw [if_pos hseen] at h; exact Or.inl h
      · rw [if_neg hseen] at h
        by_cases hv : validFeature c.2
        · rw [if_pos hv, List.mem_append] at h
          rcases h with h | h
          · exact Or.inl h
          · simp only [List.mem_singleton] at h
            subst h
            exact Or.inr ⟨List.mem_cons_self _ _, hv⟩
        · rw [if_neg hv] at h; exact Or.inl h
    · exact Or.inr ⟨List.mem_cons_of_mem _ h.1, h.2⟩

/-- C4: in prepare_modeling_data, (a) a feature whose cohort standard
deviation is zero gets z-score 0, (b) a constant column and an all-missing
column both fail the validity test, (c) a feature name all of whose candidate
columns fail the validity test never appears in the returned modeling feature
list, and (d) every returned column is a retained valid input column with
every missing cell replaced by the constant 0. -/
theorem prepare_modeling_data_spec (sq : ℚ → ℚ) (rows : List FRow) (r : FRow)
    (cols : List (String × PCol)) (name : String) (col : PCol) (v : ℚ) :
    (cohortStd sq rows r.code_module r.code_presentation = 0 →
      apply_zscore sq rows r = 0) ∧
    ((∀ x ∈ col, x = some v) → validFeature col = false) ∧
    ((∀ x ∈ col, x = none) → validFeature col = false) ∧
    ((∀ c ∈ cols, c.1 = name → validFeature c.2 = false) →
      name ∉ (prepare_modeling_data cols).map Prod.fst) ∧
    (∀ p ∈ prepare_modeling_data cols,
      ∃ c ∈ cols, c.1 = p.1 ∧ validFeature c.2 = true ∧ p.2 = fillna0 c.2) := by
  refine ⟨?_, ?_, ?_, ?_, ?_⟩
  · intro hstd
    unfold apply_zscore zscoreValue
    rw [hstd]
    simp
  · intro hconst
    have hall : ∀ y ∈ col.filterMap id, y = v := by
      intro y hy
      rcases List.mem_filterMap.mp hy with ⟨o, ho, hoy⟩
      have := hconst o ho
      subst this
      simp only [id_eq, Option.some_inj] at hoy
      exact hoy.symm
    have hle : (col.filterMap id).dedup.length ≤ 1 :=
      length_le_one_of_nodup_of_forall_eq _ v (List.nodup_dedup _)
        (fun x hx => hall x (List.mem_dedup.mp hx))
    unfold validFeature nunique
    simp only [Bool.and_eq_false_iff, decide_eq_false_iff_not, not_lt]
    right
    exact hle
  · intro hnone
    have : col.filterMap id = [] := by
      rw [List.filterMap_eq_nil_iff]
      intro o ho
      rw [hnone o ho]
      rfl
    unfold validFeature notnaSum
    simp [this]
  · intro hinvalid hmem
    rcases List.mem_map.mp hmem with ⟨p, hp, hpn⟩
    unfold prepare_modeling_data at hp
    rcases List.mem_map.mp hp with ⟨c, hc, hcp⟩
    rcases selectValidFeatures_mem cols [] c hc with h | h
    · exact absurd h (List.not_mem_nil c)
    · have hname : c.1 = name := by
        rw [← hpn, ← hcp]
      rw [hinvalid c h.1 hname] at h
      exact Bool.false_ne_true h.2
  · intro p hp
    unfold prepare_modeling_data at hp
    rcases List.mem_map.mp hp with ⟨c, hc, hcp⟩
    rcases selectValidFeatures_mem cols [] c hc with h | h
    · exact absurd h (List.not_mem_nil c)
    · exact ⟨c, h.1, by rw [← hcp], h.2, by rw [← hcp]⟩

/-- Concrete run of C4: among a constant column, an all-missing column and a
genuinely varying column with one missing cell, only the varying column is
retained, and its missing cell is filled with 0. -/
theorem prepare_modeling_data_witness :
    validFeature [some 1, some 1] = false ∧
    validFeature [none, none] = false ∧
    "a_z" ∉ (prepare_modeling_data
      [("a_z", [some 1, some 1]), ("b_z", [none, none]),
       ("c_z", [some 1, some 2, none])]).map Prod.fst ∧
    prepare_modeling_data
      [("a_z", [some 1, some 1]), ("b_z", [none, none]),
       ("c_z", [some 1, some 2, none])] = [("c_z", [1, 2, 0])] := by
  have h := prepare_modeling_data_spec id [] ⟨"AAA", "2013J", 0⟩
    [("a_z", [some 1, some 1]), ("b_z", [none, none]),
     ("c_z", [some 1, some 2, none])] "a_z" [some 1, some 1] 1
  refine ⟨h.2.1 (by decide), ?_, ?_, ?_⟩
  · have h2 := prepare_modeling_data_spec id [] ⟨"AAA", "2013J", 0⟩
      [] "b_z" [none, none] 0
    exact h2.2.2.1 (by decide)
  · refine h.2.2.2.1 ?_
    intro c hc hcn
    fin_cases hc <;> simp_all
  · decide

/-! ### Model selection (src/models/train.py, ModelTrainer) -/

/-- A candidate model: its name plus the dataset it was last fitted on
(none before any fit). -/
structure MLModel (α : Type) where
  name : String
  fittedOn : Option α
deriving DecidableEq

/-- The estimator fit call: record the training data the model was fitted
on. -/
def MLModel.fit {α : Type} (m : MLModel α) (d : α) : MLModel α :=
  { m with fittedOn := some d }

/-- One iteration of the selection loop of select_best_model: a strictly
better mean F1 updates (best_score, best_name).  `r` carries a model name and
its per-fold F1 scores; its mean is the stored `results[name]['f1']`. -/
def selBestStep (acc : ℚ × Option String) (r : String × List ℚ) :
    ℚ × Option String :=
  if listMean r.2 > acc.1 then (listMean r.2, some r.1) else acc

/-- The full selection loop, starting from best_score = -1, best_name = None. -/
def bestLoop (results : List (String × List ℚ)) : ℚ × Option String :=
  results.foldl selBestStep (-1, none)

/-- ModelTrainer.select_best_model: raises ValueError on empty results,
otherwise picks the model with the highest mean F1 and refits it on the full
training set (self.X, self.y).  A best_name that stayed None would hit
`self.models[None]`, a KeyError. -/
def select_best_model {α : Type} (models : String → MLModel α)
    (results : List (String × List ℚ)) (trainData : α) :
    Except String (String × MLModel α) :=
  if results.isEmpty then
    Except.error "ValueError: No results available"
  else
    match (bestLoop results).2 with
    | none => Except.error "KeyError: None"
    | some bestName => Except.ok (bestName, (models bestName).fit trainData)

/-- Invariant of the selection loop: the running best score never decreases,
dominates every processed mean F1, and the final state is either untouched or
the exact (mean F1, name) of some processed result. -/
lemma selBestStep_foldl_spec (results : List (String × List ℚ)) :
    ∀ init : ℚ × Option String,
      init.1 ≤ (results.foldl selBestStep init).1 ∧
      (∀ r ∈ results, listMean r.2 ≤ (results.foldl selBestStep init).1) ∧
      ((results.foldl selBestStep init) = init ∨
        ∃ r ∈ results,
          (results.foldl selBestStep init) = (listMean r.2, some r.1)) := by
  induction results with
  | nil =>
    intro init
    exact ⟨le_refl _, by intro r hr; exact absurd hr (List.not_mem_nil r),
      Or.inl rfl⟩
  | cons r rs ih =>
    intro init
    have hstep : init.1 ≤ (selBestStep init r).1 ∧
        listMean r.2 ≤ (selBestStep init r).1 ∧
        (selBestStep init r = init ∨
          selBestStep init r = (listMean r.2, some r.1)) := by
      unfold selBestStep
      by_cases h : listMean r.2 > init.1
      · rw [if_pos h]
        exact ⟨le_of_lt h, le_refl _, Or.inr rfl⟩
      · rw [if_neg h]
        exact ⟨le_refl _, le_of_not_lt h, Or.inl rfl⟩
    obtain ⟨ih1, ih2, ih3⟩ := ih (selBestStep init r)
    refine ⟨le_trans hstep.1 ih1, ?_, ?_⟩
    · intro x hx
      rcases List.mem_cons.mp hx with hx | hx
      · subst hx
        exact le_trans hstep.2.1 ih1
      · exact ih2 x hx
    · rcases ih3 with h | ⟨x, hx, hfin⟩
      · rcases hstep.2.2 with hs | hs
        · exact Or.inl (by rw [List.foldl_cons, h, hs])
        · exact Or.inr ⟨r, List.mem_cons_self _ _, by rw [List.foldl_cons, h, hs]⟩
      · exact Or.inr ⟨x, List.mem_cons_of_mem _ hx, by rw [List.foldl_cons, hfin]⟩

/-- C5: with a nonempty results table of nonnegative mean F1 scores (F1 is
always in [0, 1]), select_best_model returns a candidate whose mean F1
dominates every evaluated model, and the returned model instance has been
refit on the full training set. -/
theorem select_best_model_spec {α : Type} (models : String → MLModel α)
    (results : List (String × List ℚ)) (trainData : α)
    (hne : results ≠ [])
    (hnn : ∀ r ∈ results, 0 ≤ listMean r.2) :
    ∃ bestName bestFolds,
      (bestName, bestFolds) ∈ results ∧
      select_best_model models results trainData =
        Except.ok (bestName,
          { name := (models bestName).name, fittedOn := some trainData }) ∧
      (∀ r ∈ results, listMean r.2 ≤ listMean bestFolds) := by
  obtain ⟨h1, h2, h3⟩ := selBestStep_foldl_spec results (-1, none)
  have hbl : bestLoop results = results.foldl selBestStep (-1, none) := rfl
  rcases h3 with hid | ⟨x, hx, hfin⟩
  · exfalso
    obtain ⟨r0, hr0⟩ := List.exists_mem_of_ne_nil results hne
    have hge := le_trans (hnn r0 hr0) (h2 r0 hr0)
    rw [hid] at hge
    norm_num at hge
  · refine ⟨x.1, x.2, by rwa [Prod.mk.eta], ?_, ?_⟩
    · unfold select_best_model
      rw [if_neg (by simpa [List.isEmpty_iff] using hne)]
      rw [hbl, hfin]
      rfl
    · intro r hr
      have := h2 r hr
      rw [hfin] at this
      exact this

/-- Concrete run of C5: between a logistic regression with mean F1 = 1/2 and
a random forest with mean F1 = 3/4, the random forest is selected and comes
back refit on the full training pair. -/
theorem select_best_model_witness :
    ([("Logistic Regression", [(1 : ℚ)/2, 1/2]), ("Random Forest", [1, 1/2])]
        ≠ ([] : List (String × List ℚ))) ∧
    (∃ bestName bestFolds,
      (bestName, bestFolds) ∈
        [("Logistic Regression", [(1 : ℚ)/2, 1/2]), ("Random Forest", [1, 1/2])] ∧
      select_best_model (fun n => ⟨n, none⟩)
        [("Logistic Regression", [(1 : ℚ)/2, 1/2]), ("Random Forest", [1, 1/2])]
        ((3 : ℕ), (4 : ℕ)) =
        Except.ok (bestName, ⟨bestName, some ((3 : ℕ), (4 : ℕ))⟩) ∧
      (∀ r ∈ [("Logistic Regression", [(1 : ℚ)/2, 1/2]),
              ("Random Forest", [1, 1/2])],
        listMean r.2 ≤ listMean bestFolds)) := by
  refine ⟨by simp, ?_⟩
  exact select_best_model_spec (fun n => ⟨n, none⟩)
    [("Logistic Regression", [(1 : ℚ)/2, 1/2]), ("Random Forest", [1, 1/2])]
    ((3 : ℕ), (4 : ℕ)) (by simp)
    (by intro r hr; fin_cases hr <;> norm_num [listMean])

/-! ### Determinism of model selection under a fixed seed -/

/-- The stochastic library primitives the training pipeline calls: SMOTE
resampling and the per-model cross-validated F1 fold scores.  Each takes the
ambient global RNG state (np.random) and an optional explicit random_state,
mirroring the scikit-learn / imblearn API. -/
structure MLEnv (α : Type) where
  smote : ℕ → Option ℕ → α → α
  cvF1 : ℕ → Option ℕ → String → α → List ℚ

/-- The scikit-learn / imblearn reproducibility contract: a primitive that is
given an explicit random_state ignores the ambient global RNG state. -/
def MLEnv.SeedRespecting {α : Type} (env : MLEnv α) : Prop :=
  (∀ g g' s d, env.smote g (some s) d = env.smote g' (some s) d) ∧
  (∀ g g' s n d, env.cvF1 g (some s) n d = env.cvF1 g' (some s) n d)

/-- The ModelTrainer pipeline of train.py: __init__ applies SMOTE with
random_state = self.random_state when requested, initialize_models builds the
candidate set, train_with_cross_validation scores every candidate with a
StratifiedKFold seeded by self.random_state (every estimator carries the same
seed), and select_best_model picks and refits the winner.  `g` is the ambient
global RNG state; train.py passes an explicit seed to every stochastic call
and never draws from `g`. -/
def trainAndSelect {α : Type} (env : MLEnv α) (g : ℕ) (random_state : ℕ)
    (useSmote cb xgb : Bool) (data : α) :
    Except String (String × MLModel α) :=
  select_best_model (fun n => ⟨n, none⟩)
    ((init_models cb xgb).map
      (fun n => (n, env.cvF1 g (some random_state) n
        (if useSmote then env.smote g (some random_state) data else data))))
    (if useSmote then env.smote g (some random_state) data else data)

/-- The best-model name a pipeline run reports. -/
def bestModelName {α : Type} (r : Except String (String × MLModel α)) :
    Option String :=
  match r with
  | Except.ok p => some p.1
  | Except.error _ => none

/-- C9: two runs of model selection with the same random seed and the same
dataset report the same best-model name, whatever the ambient global RNG
states of the two runs are, provided the seeded library primitives respect
their reproducibility contract. -/
theorem model_selection_deterministic {α : Type} (env : MLEnv α)
    (henv : env.SeedRespecting) (g₁ g₂ seed : ℕ) (useSmote cb xgb : Bool)
    (data : α) :
    bestModelName (trainAndSelect env g₁ seed useSmote cb xgb data) =
      bestModelName (trainAndSelect env g₂ seed useSmote cb xgb data) := by
  have hrun : trainAndSelect env g₁ seed useSmote cb xgb data =
      trainAndSelect env g₂ seed useSmote cb xgb data := by
    unfold trainAndSelect
    have hs : (if useSmote then env.smote g₁ (some seed) data else data) =
        (if useSmote then env.smote g₂ (some seed) data else data) := by
      cases useSmote
      · rfl
      · exact henv.1 g₁ g₂ seed data
    rw [hs]
    have hc : (init_models cb xgb).map
        (fun n => (n, env.cvF1 g₁ (some seed) n
          (if useSmote then env.smote g₂ (some seed) data else data))) =
        (init_models cb xgb).map
        (fun n => (n, env.cvF1 g₂ (some seed) n
          (if useSmote then env.smote g₂ (some seed) data else data))) := by
      apply List.map_congr_left
      intro n _
      rw [henv.2 g₁ g₂ seed n _]
    rw [hc]
  rw [hrun]

/-- Concrete run of C9: a seed-respecting environment run under two different
global RNG states (17 and 99) reports the same winner. -/
theorem model_selection_deterministic_witness :
    MLEnv.SeedRespecting
      ({ smote := fun _ _ d => d,
         cvF1 := fun _ s n _ =>
           if n == "Random Forest" then [s.getD 0, 1] else [0] } :
        MLEnv ℕ) ∧
    bestModelName (trainAndSelect
      { smote := fun _ _ d => d,
        cvF1 := fun _ s n _ =>
          if n == "Random Forest" then [s.getD 0, 1] else [0] }
      17 42 true true false 5) =
    bestModelName (trainAndSelect
      { smote := fun _ _ d => d,
        cvF1 := fun _ s n _ =>
          if n == "Random Forest" then [s.getD 0, 1] else [0] }
      99 42 true true false 5) := by
  refine ⟨⟨fun g g' s d => rfl, fun g g' s n d => rfl⟩, ?_⟩
  exact model_selection_deterministic _
    ⟨fun g g' s d => rfl, fun g g' s n d => rfl⟩ 17 99 42 true true false 5

/-! ### Counterfactual generation
(src/prescriptive/dice_explainer.py, CounterfactualGenerator) -/

/-- A feature vector indexed by feature name (one dataframe row as a dict). -/
abbrev FVec := List (String × ℚ)

/-- Lookup of a feature value, pandas `row[feature]`. -/
def fvGet (v : FVec) (f : String) : Option ℚ :=
  (v.find? (fun p => p.1 == f)).map Prod.snd

/-- The recorded change of one feature: original value, counterfactual value,
and their delta, as built inside generate_counterfactuals. -/
structure FeatureChange where
  original : ℚ
  counterfactual : ℚ
  change : ℚ
deriving DecidableEq

/-- The per-feature change dict for one counterfactual row: a feature is
recorded exactly when both rows carry it and the values differ by more than
the 1e-6 tolerance. -/
def featureChanges (featureNames : List String) (orig cf : FVec) :
    List (String × FeatureChange) :=
  featureNames.filterMap (fun f =>
    match fvGet cf f, fvGet orig f with
    | some cfv, some ov =>
        if |cfv - ov| > 1 / 1000000 then
          some (f, ⟨ov, cfv, cfv - ov⟩)
        else none
    | _, _ => none)

/-- One entry of the returned counterfactuals list: the counterfactual values
restricted to the model features (cf_row[self.feature_names].to_dict()) plus
its change dict. -/
def cfEntry (featureNames : List String) (orig cf : FVec) :
    FVec × List (String × FeatureChange) :=
  (featureNames.filterMap (fun f => (fvGet cf f).map (fun q => (f, q))),
   featureChanges featureNames orig cf)

/-- The dictionary generate_counterfactuals returns. -/
structure CFResult where
  found : Bool
  original_instance : FVec
  counterfactuals : List (FVec × List (String × FeatureChange))
  error : Option String
deriving DecidableEq

/-- The try/except body of generate_counterfactuals, from the DiCE search on.
The search `dice_exp.cf_examples_list[0].final_cfs_df` is abstracted as
`search`: an exception during the search, a None dataframe, or an empty
dataframe all yield found = False with an empty list; otherwise every
returned row becomes a counterfactual entry with its per-feature deltas. -/
def cfTryBody (featureNames : List String) (inst : FVec)
    (search : Except String (Option (List FVec))) : CFResult :=
  match search with
  | Except.error e => ⟨false, inst, [], some e⟩
  | Except.ok none => ⟨false, inst, [], none⟩
  | Except.ok (some cfs) =>
    if cfs.length = 0 then ⟨false, inst, [], none⟩
    else ⟨true, inst, cfs.map (cfEntry featureNames inst), none⟩

/-- CounterfactualGenerator.generate_counterfactuals.  `explainerReady` says
whether self.explainer was already created; when it was not, the function
first calls setup_dice() — the dice_ml.Data / dice_ml.Model / Dice
construction, abstracted as `setup` — and that call stands BEFORE the
try/except (dice_explainer.py lines 93-94 against the try at line 98), so an
exception raised during DiCE setup propagates to the caller.  Everything
from the search on is inside the try/except and is handled by cfTryBody. -/
def generate_counterfactuals (featureNames : List String) (inst : FVec)
    (explainerReady : Bool) (setup : Except String Unit)
    (search : Except String (Option (List FVec))) :
    Except String CFResult :=
  match if explainerReady then Except.ok () else setup with
  | Except.error e => Except.error e
  | Except.ok _ => Except.ok (cfTryBody featureNames inst search)

/-- C6 counterexample: with the explainer not yet created and DiCE setup
raising, generate_counterfactuals propagates the exception instead of
returning a found = False dictionary — the setup_dice() call stands outside
the try/except — refuting the claim that the function never raises for
every input instance. -/
theorem generate_counterfactuals_setup_raises_counterexample :
    generate_counterfactuals ["avg_score_z"] [("avg_score_z", -1)] false
      (Except.error "ValueError raised inside dice_ml.Data")
      (Except.ok none) =
      Except.error "ValueError raised inside dice_ml.Data" := rfl

/-- C6 (amended): when the DiCE explainer is available — already created, or
its setup succeeding — generate_counterfactuals raises nothing further and
returns the try-block dictionary.  When the search raises, returns None, or
returns no rows, that dictionary has found = False and an empty
counterfactuals list.  When the search returns rows — at most total_CFs of
them, the bound DiCE was called with — it has found = True, one entry per
returned row (so at most total_CFs entries), and every recorded change is
the delta of a feature present in both the counterfactual row and the
original instance, beyond the 1e-6 tolerance.  When the explainer is not yet
created, an exception during setup propagates (see the counterexample). -/
theorem generate_counterfactuals_spec (featureNames : List String)
    (inst : FVec) (explainerReady : Bool) (setup : Except String Unit)
    (search : Except String (Option (List FVec)))
    (total_CFs : ℕ)
    (hready : explainerReady = true ∨ setup = Except.ok ())
    (hbound : ∀ cfs, search = Except.ok (some cfs) →
      cfs.length ≤ total_CFs) :
    generate_counterfactuals featureNames inst explainerReady setup search
      = Except.ok (cfTryBody featureNames inst search) ∧
    ((∃ e, search = Except.error e) ∨ search = Except.ok none ∨
        search = Except.ok (some []) →
      (cfTryBody featureNames inst search).found = false ∧
      (cfTryBody featureNames inst search).counterfactuals = []) ∧
    (∀ cfs, cfs ≠ [] → search = Except.ok (some cfs) →
      (cfTryBody featureNames inst search).found = true ∧
      (cfTryBody featureNames inst search).counterfactuals
        = cfs.map (cfEntry featureNames inst) ∧
      (cfTryBody featureNames inst search).counterfactuals.length
        ≤ total_CFs) ∧
    (∀ orig cf f ch, (f, ch) ∈ featureChanges featureNames orig cf →
      f ∈ featureNames ∧ fvGet orig f = some ch.original ∧
      fvGet cf f = some ch.counterfactual ∧
      ch.change = ch.counterfactual - ch.original ∧
      |ch.counterfactual - ch.original| > 1 / 1000000) ∧
    (cfTryBody featureNames inst search).original_instance = inst := by
  refine ⟨?_, ?_, ?_, ?_, ?_⟩
  · have hok : (if explainerReady then Except.ok () else setup)
        = Except.ok () := by
      rcases hready with h | h
      · rw [h]
        rfl
      · cases explainerReady
        · simpa using h
        · rfl
    simp only [generate_counterfactuals, hok]
  · rintro (⟨e, he⟩ | he | he) <;> rw [he] <;> exact ⟨rfl, rfl⟩
  · intro cfs hne hok
    rw [hok]
    simp only [cfTryBody]
    rw [if_neg (by simpa using hne)]
    refine ⟨rfl, rfl, ?_⟩
    simpa using hbound cfs hok
  · intro orig cf f ch hmem
    unfold featureChanges at hmem
    rcases List.mem_filterMap.mp hmem with ⟨g, hg, hmatch⟩
    rcases hcf : fvGet cf g with _ | cfv <;> rw [hcf] at hmatch
    · exact absurd hmatch (by simp)
    · rcases ho : fvGet orig g with _ | ov <;> rw [ho] at hmatch
      · exact absurd hmatch (by simp)
      · dsimp only at hmatch
        by_cases htol : |cfv - ov| > 1 / 1000000
        · rw [if_pos htol] at hmatch
          obtain ⟨hfg, hch⟩ := Prod.mk.injEq .. ▸ Option.some_inj.mp hmatch
          subst hfg
          rw [← hch]
          exact ⟨hg, ho, hcf, rfl, htol⟩
        · rw [if_neg htol] at hmatch
          exact absurd hmatch (by simp)
  · cases search with
    | error e => rfl
    | ok o =>
      cases o with
      | none => rfl
      | some cfs =>
        simp only [cfTryBody]
        split <;> rfl

/-- Concrete run of C6: with the explainer already created, a search
returning one counterfactual row that moves avg_score_z from -1 to 1 yields
an ok dictionary with found = True and at most 3 entries, and a failing
search yields an ok dictionary with found = False and no counterfactuals. -/
theorem generate_counterfactuals_witness :
    generate_counterfactuals ["avg_score_z"] [("avg_score_z", -1)] true
        (Except.ok ()) (Except.ok (some [[("avg_score_z", 1)]]))
      = Except.ok (cfTryBody ["avg_score_z"] [("avg_score_z", -1)]
          (Except.ok (some [[("avg_score_z", 1)]]))) ∧
    (cfTryBody ["avg_score_z"] [("avg_score_z", -1)]
        (Except.ok (some [[("avg_score_z", 1)]]))).found = true ∧
    (cfTryBody ["avg_score_z"] [("avg_score_z", -1)]
        (Except.ok (some [[("avg_score_z", 1)]]))).counterfactuals.length
      ≤ 3 ∧
    (cfTryBody ["avg_score_z"] [("avg_score_z", -1)]
        (Except.error "DiCE failed")).found = false ∧
    (cfTryBody ["avg_score_z"] [("avg_score_z", -1)]
        (Except.error "DiCE failed")).counterfactuals = [] := by
  have h1 := generate_counterfactuals_spec ["avg_score_z"]
    [("avg_score_z", -1)] true (Except.ok ())
    (Except.ok (some [[("avg_score_z", 1)]])) 3 (Or.inl rfl)
    (by intro cfs hc; injection hc with hc; injection hc with hc; simp [← hc])
  have h2 := generate_counterfactuals_spec ["avg_score_z"]
    [("avg_score_z", -1)] true (Except.ok ())
    (Except.error "DiCE failed") 3 (Or.inl rfl)
    (by intro cfs hc; exact absurd hc (by simp))
  obtain ⟨hf, _, hlen⟩ := h1.2.2.1 [[("avg_score_z", 1)]] (by simp) rfl
  obtain ⟨hf2, he2⟩ := h2.2.1 (Or.inl ⟨"DiCE failed", rfl⟩)
  exact ⟨h1.1, hf, hlen, hf2, he2⟩

/-! ### LLM advice generation (src/prescriptive/llm_advisor.py, LLMAdvisor) -/

/-- A JSON value, as produced by json.loads. -/
inductive Json where
  | obj (fields : List (String × Json))
  | arr (items : List Json)
  | str (s : String)
  | num (q : ℚ)
  | boolean (b : Bool)
  | null

/-- A Python dictionary of JSON values (insertion-ordered key/value list,
keys unique). -/
abbrev PyDict := List (String × Json)

/-- Python dict assignment `d[k] = v`: update an existing key in place, or
append a fresh one at the end. -/
def dictSet (d : PyDict) (k : String) (v : Json) : PyDict :=
  match d with
  | [] => [(k, v)]
  | p :: rest => if p.1 == k then (k, v) :: rest else p :: dictSet rest k v

/-- Python dict read `d[k]` (None when absent). -/
def dictGet (d : PyDict) (k : String) : Option Json :=
  (d.find? (fun p => p.1 == k)).map Prod.snd

/-- Python `sub in s`. -/
def pyContains (sub s : String) : Bool := (s.splitOn sub).length > 1

/-- The markdown code-fence stripping of generate_advice:
split on the fence markers exactly as the Python does, then strip. -/
def stripFences (text : String) : String :=
  if pyContains "```json" text then
    ((((text.splitOn "```json").getD 1 "").splitOn "```").getD 0 "").trim
  else if pyContains "```" text then
    ((((text.splitOn "```").getD 1 "").splitOn "```").getD 0 "").trim
  else text.trim

/-- Python `text[:200] + '...' if len(text) > 200 else text`. -/
def summaryOf (text : String) : String :=
  if text.length > 200 then text.take 200 ++ "..." else text

/-- LLMAdvisor.generate_advice.  `api` is the Gemini call — the response text
or a raised exception — and `jsonLoads` abstracts json.loads, with None
standing for JSONDecodeError.  When the parsed value is not a dict, the item
assignment advice['raw_response'] = ... raises TypeError, which the outer
except-Exception handler turns into the error dictionary; no exception
escapes the function. -/
def generate_advice (jsonLoads : String → Option Json)
    (api : Except String String) : PyDict :=
  match api with
  | Except.error e =>
      [("success", Json.boolean false), ("error", Json.str e),
       ("summary", Json.str "Failed to generate advice")]
  | Except.ok text =>
    match jsonLoads (stripFences text) with
    | some (Json.obj fields) =>
        dictSet (dictSet fields "raw_response" (Json.str text))
          "success" (Json.boolean true)
    | some _ =>
        [("success", Json.boolean false),
         ("error", Json.str "TypeError: item assignment on non-dict"),
         ("summary", Json.str "Failed to generate advice")]
    | none =>
        [("success", Json.boolean false), ("raw_response", Json.str text),
         ("summary", Json.str (summaryOf text))]

/-- Setting a key makes it readable back. -/
lemma dictGet_dictSet (d : PyDict) (k : String) (v : Json) :
    dictGet (dictSet d k v) k = some v := by
  induction d with
  | nil => simp [dictSet, dictGet]
  | cons p rest ih =>
    by_cases h : p.1 == k
    · simp [dictSet, dictGet, h]
    · simp only [dictSet, h, Bool.false_eq_true, if_false]
      simpa [dictGet, List.find?, h] using ih

/-- C7 counterexample: the response text "42" parses as JSON (json.loads
returns the number 42), yet the returned dictionary has success = False and
no raw_response key — the non-dict parse hits the TypeError path — refuting
"if the text parses as JSON, the returned dictionary is that parsed object
extended with success=True and the raw response". -/
theorem generate_advice_nonobject_counterexample :
    (fun _ => some (Json.num 42)) "42" = some (Json.num 42) ∧
    dictGet (generate_advice (fun _ => some (Json.num 42))
        (Except.ok "42")) "success" = some (Json.boolean false) ∧
    dictGet (generate_advice (fun _ => some (Json.num 42))
        (Except.ok "42")) "raw_response" = none := by
  refine ⟨rfl, ?_, ?_⟩ <;> rfl

/-- C7 (amended): generate_advice is total on every API outcome.  An API
exception yields the error dictionary with success = False; a response whose
stripped text parses as a JSON object yields that object extended with the
raw response and success = True; a response that fails to parse yields
success = False together with the raw response text; and a response parsing
to a non-object JSON value trips the TypeError path, yielding the error
dictionary with success = False and no raw text. -/
theorem generate_advice_spec (jsonLoads : String → Option Json)
    (api : Except String String) (text e : String) (fields : PyDict)
    (j : Json) :
    (api = Except.error e → generate_advice jsonLoads api =
      [("success", Json.boolean false), ("error", Json.str e),
       ("summary", Json.str "Failed to generate advice")]) ∧
    (api = Except.ok text →
      jsonLoads (stripFences text) = some (Json.obj fields) →
      generate_advice jsonLoads api =
        dictSet (dictSet fields "raw_response" (Json.str text))
          "success" (Json.boolean true) ∧
      dictGet (generate_advice jsonLoads api) "success"
        = some (Json.boolean true)) ∧
    (api = Except.ok text → jsonLoads (stripFences text) = none →
      generate_advice jsonLoads api =
        [("success", Json.boolean false), ("raw_response", Json.str text),
         ("summary", Json.str (summaryOf text))]) ∧
    (api = Except.ok text → jsonLoads (stripFences text) = some j →
      (∀ fs, j ≠ Json.obj fs) →
      generate_advice jsonLoads api =
        [("success", Json.boolean false),
         ("error", Json.str "TypeError: item assignment on non-dict"),
         ("summary", Json.str "Failed to generate advice")]) := by
  refine ⟨?_, ?_, ?_, ?_⟩
  · intro h
    rw [h]
    rfl
  · intro h hp
    rw [h]
    have hg : generate_advice jsonLoads (Except.ok text) =
        dictSet (dictSet fields "raw_response" (Json.str text))
          "success" (Json.boolean true) := by
      simp only [generate_advice, hp]
    exact ⟨hg, by rw [hg]; exact dictGet_dictSet _ _ _⟩
  · intro h hp
    rw [h]
    simp only [generate_advice, hp]
  · intro h hp hnotobj
    rw [h]
    cases j with
    | obj fs => exact absurd rfl (hnotobj fs)
    | arr a => simp only [generate_advice, hp]
    | str s => simp only [generate_advice, hp]
    | num q => simp only [generate_advice, hp]
    | boolean b => simp only [generate_advice, hp]
    | null => simp only [generate_advice, hp]

/-- Concrete run of C7: a response that is a JSON object gets success = True
on top of its own fields, and a response that fails to parse gets
success = False with the raw text. -/
theorem generate_advice_witness :
    generate_advice
      (fun _ => some (Json.obj [("summary", Json.str "ok")]))
      (Except.ok "A") =
      dictSet (dictSet [("summary", Json.str "ok")]
        "raw_response" (Json.str "A")) "success" (Json.boolean true) ∧
    generate_advice (fun _ => none) (Except.ok "plain text") =
      [("success", Json.boolean false),
       ("raw_response", Json.str "plain text"),
       ("summary", Json.str (summaryOf "plain text"))] := by
  constructor
  · exact (generate_advice_spec
      (fun _ => some (Json.obj [("summary", Json.str "ok")]))
      (Except.ok "A") "A" "" [("summary", Json.str "ok")] Json.null).2.1
      rfl rfl |>.1
  · exact (generate_advice_spec (fun _ => none)
      (Except.ok "plain text") "plain text" "" [] Json.null).2.2.1 rfl rfl

/-! ### Prototypical networks (src/models/few_shot_learner.py, ProtoNet) -/

/-- ProtoNet.compute_prototype, np.mean(examples, axis=0): the componentwise
mean (centroid) of the example rows. -/
def compute_prototype (examples : List (List ℚ)) : List ℚ :=
  (List.range (examples.headD []).length).map
    (fun j => listMean (examples.map (fun e => e.getD j 0)))

/-- Insertion into a sorted list of labels. -/
def insertSorted (x : ℕ) : List ℕ → List ℕ
  | [] => [x]
  | y :: t => if x ≤ y then x :: y :: t else y :: insertSorted x t

/-- np.unique: the sorted distinct class labels. -/
def npUnique (l : List ℕ) : List ℕ := l.dedup.foldr insertSorted []

/-- ProtoNet.fit: one prototype per distinct support label, the centroid of
the boolean-mask selection X_support[y_support == cls]. -/
def fitPrototypes (Xs : List (List ℚ)) (ys : List ℕ) : List (ℕ × List ℚ) :=
  (npUnique ys).map (fun c =>
    (c, compute_prototype
      (((Xs.zip ys).filter (fun q => q.2 == c)).map Prod.fst)))

/-- Squared Euclidean norm of the difference of two equally-long vectors. -/
def sqDiffSum (x p : List ℚ) : ℚ :=
  (List.zipWith (fun a b => (a - b) ^ 2) x p).sum

/-- ProtoNet.euclidean_distance: np.sqrt of the summed squared differences;
`sq` abstracts the square-root map. -/
def euclidean_distance (sq : ℚ → ℚ) (x p : List ℚ) : ℚ := sq (sqDiffSum x p)

/-- np.max of a score list (scores are nonempty in predict_proba). -/
def listMax : List ℚ → ℚ
  | [] => 0
  | x :: t => t.foldl max x

/-- The numerically-stabilized softmax of predict_proba:
`exp_scores = np.exp(scores - np.max(scores)); probs = exp_scores / sum`. -/
def softmaxStable (E : ℚ → ℚ) (scores : List ℚ) : List ℚ :=
  (scores.map (fun s => E (s - listMax scores))).map
    (fun e => e / (scores.map (fun s => E (s - listMax scores))).sum)

/-- Textbook softmax, the specification side of C8. -/
def softmaxSpec (E : ℚ → ℚ) (scores : List ℚ) : List ℚ :=
  scores.map (fun s => E s / (scores.map E).sum)

/-- ProtoNet.predict_proba on one query row: Euclidean distance to every
prototype, scores = negated distances, stabilized softmax, keyed by class. -/
def predict_proba_row (E sq : ℚ → ℚ) (protos : List (ℕ × List ℚ))
    (x : List ℚ) : List (ℕ × ℚ) :=
  (protos.map Prod.fst).zip
    (softmaxStable E (protos.map (fun p => - euclidean_distance sq x p.2)))

/-- np.argmax: the index of the first maximal entry. -/
def argmaxIdx : List ℚ → ℕ
  | [] => 0
  | [_] => 0
  | x :: y :: t =>
    if x < (y :: t).getD (argmaxIdx (y :: t)) 0 then argmaxIdx (y :: t) + 1
    else 0

/-- The row `probabilities[i, :]` of predict_proba: a zero vector of width
n_classes with probabilities scattered to index int(cls). -/
def probVector (pairs : List (ℕ × ℚ)) (n_classes : ℕ) : List ℚ :=
  pairs.foldl (fun acc p => acc.set p.1 p.2) (List.replicate n_classes 0)

/-- ProtoNet.predict on one query row: np.argmax over the class-indexed
probability row. -/
def predict_row (E sq : ℚ → ℚ) (protos : List (ℕ × List ℚ))
    (x : List ℚ) : ℕ :=
  argmaxIdx (probVector (predict_proba_row E sq protos x) protos.length)

/-- Factoring a common positive multiplier out of the stabilized softmax:
it equals the textbook softmax whenever E is an exponential
(E (a+b) = E a * E b, E positive), exactly the numpy stability argument. -/
lemma softmaxStable_eq_spec (E : ℚ → ℚ)
    (hE : ∀ a b, E (a + b) = E a * E b) (hpos : ∀ a, 0 < E a)
    (scores : List ℚ) :
    softmaxStable E scores = softmaxSpec E scores := by
  have hfac : ∀ s : ℚ, E (s - listMax scores) = E s * E (- listMax scores) := by
    intro s
    rw [sub_eq_add_neg, hE]
  have hmap : scores.map (fun s => E (s - listMax scores)) =
      scores.map (fun s => E s * E (- listMax scores)) :=
    List.map_congr_left (fun s _ => hfac s)
  have hsum : ∀ (l : List ℚ) (c : ℚ),
      (l.map (fun s => E s * c)).sum = (l.map E).sum * c := by
    intro l c
    induction l with
    | nil => simp
    | cons a t ih => simp [ih, add_mul]
  unfold softmaxStable softmaxSpec
  rw [hmap, hsum scores (E (- listMax scores)), List.map_map]
  apply List.map_congr_left
  intro s _
  simp only [Function.comp_apply]
  exact mul_div_mul_right _ _ (ne_of_gt (hpos _))

/-- np.argmax lands inside the list and dominates every entry. -/
lemma argmaxIdx_spec (xs : List ℚ) (hne : xs ≠ []) :
    argmaxIdx xs < xs.length ∧
    ∀ j < xs.length, xs.getD j 0 ≤ xs.getD (argmaxIdx xs) 0 := by
  induction xs with
  | nil => exact absurd rfl hne
  | cons x t ih =>
    cases t with
    | nil =>
      refine ⟨by simp [argmaxIdx], ?_⟩
      intro j hj
      have : j = 0 := Nat.lt_one_iff.mp (by simpa using hj)
      subst this
      simp [argmaxIdx]
    | cons y t2 =>
      obtain ⟨ihlt, ihmax⟩ := ih (by simp)
      by_cases h : x < (y :: t2).getD (argmaxIdx (y :: t2)) 0
      · have hdef : argmaxIdx (x :: y :: t2) = argmaxIdx (y :: t2) + 1 := by
          simp only [argmaxIdx]
          rw [if_pos h]
        rw [hdef]
        refine ⟨by simpa using Nat.succ_lt_succ ihlt, ?_⟩
        intro j hj
        cases j with
        | zero => simpa using le_of_lt h
        | succ j2 =>
          rw [List.getD_cons_succ, List.getD_cons_succ]
          exact ihmax j2 (by simpa using Nat.lt_of_succ_lt_succ hj)
      · have hdef : argmaxIdx (x :: y :: t2) = 0 := by
          simp only [argmaxIdx]
          rw [if_neg h]
        rw [hdef]
        refine ⟨by simp, ?_⟩
        intro j hj
        cases j with
        | zero => simp
        | succ j2 =>
          rw [List.getD_cons_succ, List.getD_cons_zero]
          exact le_trans
            (ihmax j2 (by simpa using Nat.lt_of_succ_lt_succ hj))
            (le_of_not_lt h)

/-- Scatter-write loops preserve length. -/
lemma foldl_set_length (pairs : List (ℕ × ℚ)) :
    ∀ acc : List ℚ,
      (pairs.foldl (fun a p => a.set p.1 p.2) acc).length = acc.length := by
  induction pairs with
  | nil => intro acc; rfl
  | cons p rest ih =>
    intro acc
    rw [List.foldl_cons, ih, List.length_set]

/-- A scatter-write loop leaves indices it never writes untouched. -/
lemma foldl_set_getD_not_mem (pairs : List (ℕ × ℚ)) :
    ∀ (acc : List ℚ) (c : ℕ), c ∉ pairs.map Prod.fst →
      (pairs.foldl (fun a p => a.set p.1 p.2) acc).getD c 0
        = acc.getD c 0 := by
  induction pairs with
  | nil => intro acc c _; rfl
  | cons p rest ih =>
    intro acc c h
    simp only [List.map_cons, List.mem_cons] at h
    push_neg at h
    rw [List.foldl_cons, ih _ c h.2]
    simp [List.getElem?_set_ne (Ne.symm h.1)]

/-- With pairwise-distinct target indices, a scatter-write loop stores each
written value at its index. -/
lemma foldl_set_getD_mem (pairs : List (ℕ × ℚ)) :
    ∀ (acc : List ℚ) (c : ℕ) (v : ℚ),
      (pairs.map Prod.fst).Nodup → (c, v) ∈ pairs → c < acc.length →
      (pairs.foldl (fun a p => a.set p.1 p.2) acc).getD c 0 = v := by
  induction pairs with
  | nil => intro acc c v _ h _; exact absurd h (List.not_mem_nil _)
  | cons p rest ih =>
    intro acc c v hnd hmem hlen
    simp only [List.map_cons, List.nodup_cons] at hnd
    rw [List.foldl_cons]
    rcases List.mem_cons.mp hmem with h | h
    · have hp1 : p.1 = c := by rw [← h]
      have hp2 : p.2 = v := by rw [← h]
      have hc : c ∉ rest.map Prod.fst := by rw [← hp1]; exact hnd.1
      rw [foldl_set_getD_not_mem rest _ c hc, hp1, hp2,
        List.getD_eq_getElem?_getD, List.getElem?_set_self hlen]
      rfl
    · exact ih _ c v hnd.2 h (by rwa [List.length_set])

/-- C8: for a fitted ProtoNet, (a) every stored prototype is the centroid of
its class's support examples, componentwise the mean of that coordinate,
(b) predict_proba assigns each class the textbook softmax of the negative
Euclidean distance to its prototype whenever E is a positive exponential,
and (c) predict returns a class index whose probability dominates the
probability assigned to every class. -/
theorem protonet_spec (E sq : ℚ → ℚ) (Xs : List (List ℚ)) (ys : List ℕ)
    (protos : List (ℕ × List ℚ)) (x : List ℚ)
    (hE : ∀ a b, E (a + b) = E a * E b) (hpos : ∀ a, 0 < E a)
    (hne : protos ≠ []) (hnodup : (protos.map Prod.fst).Nodup)
    (hlt : ∀ c ∈ protos.map Prod.fst, c < protos.length) :
    (∀ c p, (c, p) ∈ fitPrototypes Xs ys →
      p = compute_prototype
        (((Xs.zip ys).filter (fun q => q.2 == c)).map Prod.fst)) ∧
    (∀ (exs : List (List ℚ)) (j : ℕ), j < (exs.headD []).length →
      (compute_prototype exs).getD j 0
        = listMean (exs.map (fun e => e.getD j 0))) ∧
    predict_proba_row E sq protos x =
      (protos.map Prod.fst).zip
        (softmaxSpec E (protos.map
          (fun p => - euclidean_distance sq x p.2))) ∧
    (∀ c pr, (c, pr) ∈ predict_proba_row E sq protos x →
      pr ≤ (probVector (predict_proba_row E sq protos x)
              protos.length).getD (predict_row E sq protos x) 0) := by
  refine ⟨?_, ?_, ?_, ?_⟩
  · intro c p hmem
    unfold fitPrototypes at hmem
    rcases List.mem_map.mp hmem with ⟨c0, _, hc0⟩
    obtain ⟨hc, hp⟩ := Prod.mk.injEq .. ▸ hc0
    rw [← hp, hc]
  · intro exs j hj
    unfold compute_prototype
    rw [List.headD_eq_head?_getD] at hj
    rw [List.getD_eq_getElem?_getD, List.getElem?_map]
    simp [List.getElem?_range hj]
  · unfold predict_proba_row
    rw [softmaxStable_eq_spec E hE hpos]
  · intro c pr hmem
    set pairs := predict_proba_row E sq protos x with hpairs
    have hfst : pairs.map Prod.fst = protos.map Prod.fst := by
      rw [hpairs]
      unfold predict_proba_row
      apply List.map_fst_zip
      unfold softmaxStable
      simp
    have hcmem : c ∈ protos.map Prod.fst := by
      rw [← hfst]
      exact List.mem_map.mpr ⟨(c, pr), hmem, rfl⟩
    have hclt : c < protos.length := hlt c hcmem
    have hveclen : (probVector pairs protos.length).length = protos.length := by
      unfold probVector
      rw [foldl_set_length, List.length_replicate]
    have hstored : (probVector pairs protos.length).getD c 0 = pr := by
      unfold probVector
      apply foldl_set_getD_mem pairs _ c pr (by rwa [hfst]) hmem
      rwa [List.length_replicate]
    have hvec_ne : probVector pairs protos.length ≠ [] := by
      intro hcon
      rw [hcon] at hveclen
      have : protos = [] := List.length_eq_zero.mp hveclen.symm
      exact hne this
    obtain ⟨_, hmax⟩ := argmaxIdx_spec (probVector pairs protos.length) hvec_ne
    have := hmax c (by rwa [hveclen])
    rw [hstored] at this
    unfold predict_row
    rwa [← hpairs]

/-- Concrete run of C8: two singleton-class prototypes at [0, 0] and [2, 2],
the constant-one exponential (a positive homomorphism) and the identity
square root; the query [0, 0] gets a probability no smaller than either
class probability at the predicted class. -/
theorem protonet_spec_witness :
    ((0, [(0 : ℚ), 0]) ∈ fitPrototypes [[(0 : ℚ), 0], [2, 2]] [0, 1] →
      ([(0 : ℚ), 0] : List ℚ) = compute_prototype
        ((([[(0 : ℚ), 0], [2, 2]].zip [0, 1]).filter
          (fun q => q.2 == 0)).map Prod.fst)) ∧
    (∀ c pr, (c, pr) ∈ predict_proba_row (fun _ => 1) id
        [(0, [(0 : ℚ), 0]), (1, [2, 2])] [0, 0] →
      pr ≤ (probVector (predict_proba_row (fun _ => 1) id
              [(0, [(0 : ℚ), 0]), (1, [2, 2])] [0, 0]) 2).getD
            (predict_row (fun _ => 1) id
              [(0, [(0 : ℚ), 0]), (1, [2, 2])] [0, 0]) 0) := by
  have h := protonet_spec (fun _ => 1) id [[(0 : ℚ), 0], [2, 2]] [0, 1]
    [(0, [(0 : ℚ), 0]), (1, [2, 2])] [0, 0]
    (fun a b => by norm_num) (fun a => by norm_num)
    (by simp) (by simp) (by intro c hc; fin_cases hc <;> norm_num)
  exact ⟨fun hmem => h.1 0 [(0 : ℚ), 0] hmem, h.2.2.2⟩

/-! ### Cold-start KNN handler (src/models/cold_start_handler.py)

The demographic category values are strings in the source, used only through
equality and the lexicographic order np.unique sorts by; the embedding keeps
the category type abstract over a linear order. -/

/-- Insertion into a ≤-sorted list of category values. -/
def insertSortedVal {α : Type} [LinearOrder α] (x : α) :
    List α → List α
  | [] => [x]
  | y :: t => if x ≤ y then x :: y :: t else y :: insertSortedVal x t

/-- LabelEncoder.fit: classes_ = np.unique(column), the sorted distinct
category values of the column. -/
def leClasses {α : Type} [LinearOrder α] (column : List α) : List α :=
  column.dedup.foldr insertSortedVal []

/-- LabelEncoder.transform of a category known to the encoder: its index in
classes_. -/
def leTransform {α : Type} [DecidableEq α] (classes : List α) (v : α) : ℕ :=
  classes.indexOf v

/-- The query-side encoding of predict_new_student: a category seen by the
encoder maps to its class index, an unseen one to 0. -/
def encodeQueryValue {α : Type} [LinearOrder α] (classes : List α)
    (v : α) : ℕ :=
  if v ∈ classes then leTransform classes v else 0

/-- The cold-start handler state: the demographic feature count (the length
of self.demographic_features), the historical demographic rows, and the
historical risk column. -/
structure ColdStart (α : Type) where
  nFeatures : ℕ
  rows : List (List α)
  risks : List ℚ

/-- Column j of the historical demographics. -/
def csColumn {α : Type} [Inhabited α] (cs : ColdStart α) (j : ℕ) : List α :=
  cs.rows.map (fun r => r.getD j default)

/-- The fitted label classes of feature column j. -/
def csClasses {α : Type} [LinearOrder α] [Inhabited α] (cs : ColdStart α)
    (j : ℕ) : List α :=
  leClasses (csColumn cs j)

/-- The method _prepare_demographic_model: a historical row label-encoded
columnwise (the KNN feature matrix). -/
def encodeHistRow {α : Type} [LinearOrder α] [Inhabited α] (cs : ColdStart α)
    (r : List α) : List ℚ :=
  (List.range cs.nFeatures).map
    (fun j => ((leTransform (csClasses cs j) (r.getD j default) : ℕ) : ℚ))

/-- The encoded input of predict_new_student, unseen categories mapping
to 0. -/
def encodeQuery {α : Type} [LinearOrder α] [Inhabited α] (cs : ColdStart α)
    (q : List α) : List ℚ :=
  (List.range cs.nFeatures).map
    (fun j =>
      ((encodeQueryValue (csClasses cs j) (q.getD j default) : ℕ) : ℚ))

/-- Stable insertion into a distance-sorted neighbor list. -/
def insertByDist (x : ℚ × ℚ) : List (ℚ × ℚ) → List (ℚ × ℚ)
  | [] => [x]
  | y :: t => if x.1 < y.1 then x :: y :: t else y :: insertByDist x t

/-- Stable sort of (distance, risk) pairs by ascending distance. -/
def sortByDist : List (ℚ × ℚ) → List (ℚ × ℚ)
  | [] => []
  | x :: t => insertByDist x (sortByDist t)

/-- NearestNeighbors.kneighbors: the k historical rows closest in Euclidean
distance to the encoded query, as (distance, risk) pairs. -/
def kneighbors {α : Type} [LinearOrder α] [Inhabited α] (sq : ℚ → ℚ)
    (cs : ColdStart α) (q : List α) (k : ℕ) : List (ℚ × ℚ) :=
  (sortByDist ((cs.rows.zip cs.risks).map
    (fun p => (euclidean_distance sq (encodeQuery cs q)
      (encodeHistRow cs p.1), p.2)))).take k

/-- np.var: population variance (ddof = 0). -/
def npVar (xs : List ℚ) : ℚ :=
  listMean (xs.map (fun x => (x - listMean xs) ^ 2))

/-- The prediction dictionary of the KNN path. -/
structure ColdStartPred where
  risk_probability : ℚ
  confidence : ℚ
  method : String

/-- ColdStartHandler.predict_new_student, KNN path (lines 125-180): weighted
average risk over the k nearest neighbors (weights 1/(distance + 1e-6),
normalized), variance-based confidence 1 - min(2·var, 1), distance
confidence 1 - avg_distance / max_distance with max_distance =
np.sqrt(len(self.demographic_features)) — which the code comments call the
maximum possible distance — and their average as the final confidence. -/
def predict_new_student {α : Type} [LinearOrder α] [Inhabited α]
    (sq : ℚ → ℚ) (cs : ColdStart α) (q : List α) (k_neighbors : ℕ) :
    ColdStartPred :=
  let nbrs := kneighbors sq cs q (min k_neighbors cs.rows.length)
  let risk_probs := nbrs.map Prod.snd
  let weights0 := nbrs.map (fun p => 1 / (p.1 + 1 / 1000000))
  let weights := weights0.map (fun w => w / weights0.sum)
  let predicted_risk :=
    (List.zipWith (fun w r => w * r) weights risk_probs).sum / weights.sum
  let neighbor_variance := npVar risk_probs
  let confidence := 1 - min (neighbor_variance * 2) 1
  let avg_distance := listMean (nbrs.map Prod.fst)
  let max_distance := sq ((cs.nFeatures : ℕ) : ℚ)
  let distance_confidence := 1 - avg_distance / max_distance
  { risk_probability := predicted_risk,
    confidence := (confidence + distance_confidence) / 2,
    method := "demographic_knn" }

/-- The exact square root on every value this failing input reaches
(0, 1, 4, 9, 16, and the feature count 1). -/
def csqrtW : ℚ → ℚ := fun q =>
  if q = 1 then 1 else if q = 4 then 2 else if q = 9 then 3
  else if q = 16 then 4 else 0

/-- The failing historical table: one demographic feature whose column holds
five distinct categories (codes 0..4 after label encoding, standing for five
category strings in sorted order) over six rows, all with risk 0. -/
def coldW : ColdStart ℕ :=
  ⟨1, [[0], [1], [2], [3], [4], [4]], [0, 0, 0, 0, 0, 0]⟩

set_option maxHeartbeats 1600000 in
/-- C10 failing input: querying coldW with the smallest category and
k_neighbors = 10.  The average neighbor distance is 7/3, beyond
max_distance = sqrt(1) = 1, so the returned confidence is -1/6 — outside
[0, 1], against the intent of the code's own "Scale to 0-1" and "Max
possible distance" comments. -/
theorem cold_start_confidence_negative :
    (predict_new_student csqrtW coldW [0] 10).confidence = -(1 / 6) ∧
    (predict_new_student csqrtW coldW [0] 10).confidence < 0 := by
  have hnf : coldW.nFeatures = 1 := rfl
  have hrows : coldW.rows = [[0], [1], [2], [3], [4], [4]] := rfl
  have hrisks : coldW.risks = [0, 0, 0, 0, 0, 0] := rfl
  have hcls : csClasses coldW 0 = [0, 1, 2, 3, 4] := by decide
  have hr1 : List.range 1 = [0] := by decide
  have hq : encodeQuery coldW [0] = [0] := by
    simp [encodeQuery, encodeQueryValue, leTransform, hcls, hnf, hr1,
      List.indexOf, List.findIdx, List.findIdx.go]
  have h0 : encodeHistRow coldW [0] = [(0 : ℚ)] := by
    simp [encodeHistRow, leTransform, hcls, hnf, hr1,
      List.indexOf, List.findIdx, List.findIdx.go]
  have h1 : encodeHistRow coldW [1] = [(1 : ℚ)] := by
    simp [encodeHistRow, leTransform, hcls, hnf, hr1,
      List.indexOf, List.findIdx, List.findIdx.go]
  have h2 : encodeHistRow coldW [2] = [(2 : ℚ)] := by
    simp [encodeHistRow, leTransform, hcls, hnf, hr1,
      List.indexOf, List.findIdx, List.findIdx.go]
  have h3 : encodeHistRow coldW [3] = [(3 : ℚ)] := by
    simp [encodeHistRow, leTransform, hcls, hnf, hr1,
      List.indexOf, List.findIdx, List.findIdx.go]
  have h4 : encodeHistRow coldW [4] = [(4 : ℚ)] := by
    simp [encodeHistRow, leTransform, hcls, hnf, hr1,
      List.indexOf, List.findIdx, List.findIdx.go]
  have hmap : (coldW.rows.zip coldW.risks).map
      (fun p => (euclidean_distance csqrtW (encodeQuery coldW [0])
        (encodeHistRow coldW p.1), p.2)) =
      [(0, 0), (1, 0), (2, 0), (3, 0), (4, 0), (4, 0)] := by
    simp only [hrows, hrisks, List.zip_cons_cons, List.zip_nil_right,
      List.map_cons, List.map_nil, hq, h0, h1, h2, h3, h4]
    norm_num [euclidean_distance, sqDiffSum, csqrtW]
  have hsort : sortByDist
      [((0 : ℚ), (0 : ℚ)), (1, 0), (2, 0), (3, 0), (4, 0), (4, 0)] =
      [(0, 0), (1, 0), (2, 0), (3, 0), (4, 0), (4, 0)] := by
    norm_num [sortByDist, insertByDist]
  have hnbrs : kneighbors csqrtW coldW [0] (min 10 coldW.rows.length) =
      [(0, 0), (1, 0), (2, 0), (3, 0), (4, 0), (4, 0)] := by
    rw [kneighbors, hmap, hsort]
    norm_num [hrows]
  have h : (predict_new_student csqrtW coldW [0] 10).confidence
      = -(1 / 6) := by
    rw [predict_new_student, hnbrs]
    norm_num [npVar, listMean, csqrtW, min_def, hnf]
  exact ⟨h, by rw [h]; norm_num⟩

end PLAF
